import Mathlib

/-!
Shallow embedding of the multi-board knowledge-extraction and
candidate-scoring engine of `src/impersonate_guesser.py`.

Modelling conventions:
* a word is a list of characters (`List Char`), a feedback tile is the raw
  string the code compares against (`"green"`, `"yellow"`, `"grey"`, or
  anything else that may appear in a history);
* Python `set`s become `Finset`s; the `green_letters` dict mapping a letter
  to the set of its confirmed positions becomes a `Finset (Char × Nat)` of
  letter/position pairs (a key of the dict is exactly a first component of a
  pair, since the code inserts a position immediately after creating a key);
* the parallel iteration `for i, guess in enumerate(guesses)` with
  `feedback = feedback_history[i]` is modelled by zipping the two lists,
  which coincides with the source on every board satisfying the documented
  invariant `len(guesses) == len(feedback)`;
* Python float arithmetic on the small scores involved is modelled by exact
  rational arithmetic (`ℚ`); the literals `1.5`, `0.8`, `0.5` become
  `3/2`, `4/5`, `1/2`;
* `random.sample` and the wordlist file are inputs of the core, so the
  sampled candidate list is passed as an explicit argument, and the sample
  size `min(NUM_CANDIDATES, len(wordlist))` is its own definition;
* Python's `list.sort(key=..., reverse=True)` is a stable descending sort,
  modelled by `List.insertionSort` with the reflexive relation
  `b.score ≤ a.score` (stable, and sorted descending).
-/

namespace Wordle9

/-- A word: a sequence of characters, as Python iterates a string. -/
abbrev Word := List Char

/-- A feedback tile, kept as the raw string the source compares against. -/
abbrev Tile := String

/-- One puzzle instance: the `game` dictionary of the source, with fields
`target_word`, `guesses` and `feedback`. -/
structure Game where
  target_word : Word
  guesses : List Word
  feedback : List (List Tile)
deriving DecidableEq

/-- The knowledge dictionary built by `extract_game_knowledge`:
`grey_letters`, `yellow_letters`, `green_letters` (letter/position pairs)
and `all_known_letters`. -/
structure Knowledge where
  grey_letters : Finset Char
  yellow_letters : Finset Char
  green_letters : Finset (Char × Nat)
  all_known_letters : Finset Char
deriving DecidableEq

/-- The keys of the `green_letters` mapping. -/
def Knowledge.greenKeys (kn : Knowledge) : Finset Char :=
  kn.green_letters.image Prod.fst

/-- One step of the tile loop of `extract_game_knowledge`
(`src/impersonate_guesser.py` lines 40-47): route the letter into
`green_letters`, `yellow_letters` or `grey_letters` according to the tile;
any other tile value falls through the `if/elif` chain and changes
nothing. -/
def processTile (kn : Knowledge) (letter : Char) (pos : Nat) (tile : Tile) :
    Knowledge :=
  if tile = "green" then
    { kn with green_letters := insert (letter, pos) kn.green_letters }
  else if tile = "yellow" then
    { kn with yellow_letters := insert letter kn.yellow_letters }
  else if tile = "grey" then
    { kn with grey_letters := insert letter kn.grey_letters }
  else kn

/-- The inner loop `for j, letter in enumerate(guess)` of
`extract_game_knowledge`, paired with the feedback row. -/
def processGuess (kn : Knowledge) (guess : Word) (fb : List Tile) :
    Knowledge :=
  (guess.zip fb).enum.foldl (fun k p => processTile k p.2.1 p.1 p.2.2) kn

/-- `extract_game_knowledge` (`src/impersonate_guesser.py` lines 18-56):
accumulate over the guess/feedback history, then remove from the grey set
every letter that is yellow or a green key anywhere in the history, and
take `all_known_letters` as the union of the corrected grey set, the yellow
set and the green keys. -/
def extract_game_knowledge (game : Game) : Knowledge :=
  let kn := (game.guesses.zip game.feedback).foldl
    (fun k gf => processGuess k gf.1 gf.2) ⟨∅, ∅, ∅, ∅⟩
  let grey := (kn.grey_letters \ kn.yellow_letters) \ kn.green_letters.image Prod.fst
  { grey_letters := grey
    yellow_letters := kn.yellow_letters
    green_letters := kn.green_letters
    all_known_letters :=
      grey ∪ kn.yellow_letters ∪ kn.green_letters.image Prod.fst }

/-- `is_word_valid_for_game` (`src/impersonate_guesser.py` lines 58-74):
the grey set must be disjoint from the word's letters, every yellow letter
must occur in the word, and every recorded green letter/position pair must
match the word at that position (the source reads `word[pos]`, in range for
the 5-letter words and 0-4 positions it is applied to). -/
def is_word_valid_for_game (word : Word) (kn : Knowledge) : Bool :=
  decide (Disjoint kn.grey_letters word.toFinset) &&
  decide (kn.yellow_letters ⊆ word.toFinset) &&
  decide (∀ lp ∈ kn.green_letters, word.getD lp.2 ' ' = lp.1)

/-- The per-candidate aggregate counters of the analysis loop
(`details` of an analysis result). -/
structure Details where
  valid_for_n_games : Nat
  total_new_letters : Nat
  total_reused_grey : Nat
  total_reused_yellow : Nat
  total_reused_green : Nat
deriving DecidableEq

/-- The all-zero counters every candidate starts from. -/
def zeroDetails : Details := ⟨0, 0, 0, 0, 0⟩

/-- Pointwise sum of counters, as the `+=` accumulation across games. -/
def addDetails (a b : Details) : Details :=
  ⟨a.valid_for_n_games + b.valid_for_n_games,
   a.total_new_letters + b.total_new_letters,
   a.total_reused_grey + b.total_reused_grey,
   a.total_reused_yellow + b.total_reused_yellow,
   a.total_reused_green + b.total_reused_green⟩

/-- One candidate with its score and counters (an element of
`analysis_results`). -/
structure AnalysisResult where
  word : Word
  score : ℚ
  details : Details
deriving DecidableEq

/-- The heuristic score of `src/impersonate_guesser.py` line 300:
`score = (valid_for_games * 10) + (total_new * 1.5) - (total_reused_grey * 5)`. -/
def detailsScore (d : Details) : ℚ :=
  (d.valid_for_n_games : ℚ) * 10 + (d.total_new_letters : ℚ) * (3 / 2)
    - (d.total_reused_grey : ℚ) * 5

/-- The body of the per-game loop for one candidate, when the game is not
skipped (`src/impersonate_guesser.py` lines 280-293): extract knowledge,
test validity, and accumulate the four letter-set counters. -/
def activeContribution (word : Word) (game : Game) : Details :=
  let knowledge := extract_game_knowledge game
  let word_letters := word.toFinset
  { valid_for_n_games := if is_word_valid_for_game word knowledge then 1 else 0
    total_new_letters := (word_letters \ knowledge.all_known_letters).card
    total_reused_grey := (word_letters ∩ knowledge.grey_letters).card
    total_reused_yellow := (word_letters ∩ knowledge.yellow_letters).card
    total_reused_green := (word_letters ∩ knowledge.greenKeys).card }

/-- The per-game loop body including the skip of already-won games
(`src/impersonate_guesser.py` lines 275-277): a game whose last guess
equals its target contributes nothing. -/
def gameContribution (word : Word) (game : Game) : Details :=
  if game.guesses.getLast? = some game.target_word then zeroDetails
  else activeContribution word game

/-- The analysis of one candidate word across all game states
(`src/impersonate_guesser.py` lines 267-312): sum the per-game
contributions and attach the heuristic score. -/
def analyzeWord (game_states : List Game) (word : Word) : AnalysisResult :=
  let d := game_states.foldl
    (fun acc g => addDetails acc (gameContribution word g)) zeroDetails
  { word := word, score := detailsScore d, details := d }

/-- `previously_guessed` (`src/impersonate_guesser.py` line 259): the union
of every guess ever made on every board, modelled by membership in the
concatenation. -/
def previously_guessed (game_states : List Game) : List Word :=
  (game_states.map Game.guesses).flatten

/-- The candidate loop of `impersonate_guesser`
(`src/impersonate_guesser.py` lines 263-312): skip candidates already
guessed on any board, analyze the rest. -/
def analyzeCandidates (game_states : List Game) (candidate_words : List Word) :
    List AnalysisResult :=
  (candidate_words.filter
      (fun w => ! decide (w ∈ previously_guessed game_states))).map
    (analyzeWord game_states)

/-- `analysis_results.sort(key=lambda x: x["score"], reverse=True)`
(`src/impersonate_guesser.py` line 315): a stable descending sort by
score. -/
def sortResults (rs : List AnalysisResult) : List AnalysisResult :=
  rs.insertionSort (fun a b => b.score ≤ a.score)

/-- The tier classification of `build_reasoning_report`
(`src/impersonate_guesser.py` lines 89-103): on a non-empty result list,
`max_score` is the first score, `min_score` the last, the range substitutes
`1` when the two coincide, and each result goes to the great, good or bad
bucket by its normalized score against the thresholds `0.8` and `0.5`. -/
def classifyTiers :
    List AnalysisResult →
      List AnalysisResult × List AnalysisResult × List AnalysisResult
  | [] => ([], [], [])
  | r :: rs =>
    let results := r :: rs
    let max_score := r.score
    let min_score := (results.getLast (List.cons_ne_nil r rs)).score
    let score_range := if max_score ≠ min_score then max_score - min_score else 1
    let normalized := fun x : AnalysisResult => (x.score - min_score) / score_range
    (results.filter (fun x => decide (normalized x ≥ 4 / 5)),
     results.filter
       (fun x => ! decide (normalized x ≥ 4 / 5) && decide (normalized x ≥ 1 / 2)),
     results.filter
       (fun x => ! decide (normalized x ≥ 4 / 5) && ! decide (normalized x ≥ 1 / 2)))

/-- `build_reasoning_report` (`src/impersonate_guesser.py` lines 76-238),
reduced to the data the report must convey: the three tier buckets and, as
the conclusion, the member words of each tier. The prose around them is
presentational and not modelled. -/
def build_reasoning_report (analysis_results : List AnalysisResult) : String :=
  let t := classifyTiers analysis_results
  let names := fun l : List AnalysisResult =>
    String.intercalate ", " (l.map (fun r => String.mk r.word))
  "Great Guesses: [" ++ names t.1 ++ "] Good Guesses: [" ++ names t.2.1 ++
    "] Bad Guesses: [" ++ names t.2.2 ++ "]"

/-- `NUM_CANDIDATES` (`src/impersonate_guesser.py` line 6). -/
def NUM_CANDIDATES : Nat := 100

/-- The size of the draw `random.sample(wordlist, min(NUM_CANDIDATES,
len(wordlist)))` at `src/impersonate_guesser.py` line 256. -/
def sample_size (wordlist : List Word) : Nat :=
  min NUM_CANDIDATES wordlist.length

/-- `impersonate_guesser` (`src/impersonate_guesser.py` lines 241-320).
The wordlist (read from a file by `load_wordlist`) and the random sample
drawn from it are inputs of the core, so both are explicit arguments here:
an empty wordlist short-circuits to an empty result, otherwise the sampled
candidates are analyzed, sorted descending by score, and reported. -/
def impersonate_guesser (wordlist candidate_words : List Word)
    (game_states : List Game) : List AnalysisResult × String :=
  if wordlist = [] then ([], "No wordlist loaded.")
  else
    let analysis_results := sortResults (analyzeCandidates game_states candidate_words)
    (analysis_results, build_reasoning_report analysis_results)

/-- State-passing form of the per-game loop body: the source reads the
fields of `game` and assigns to none of them, so the board handed back is
rebuilt from exactly the fields the record carries. -/
def gameStep (word : Word) (game : Game) : Game × Details :=
  (⟨game.target_word, game.guesses, game.feedback⟩, gameContribution word game)

/-- State-passing form of the per-candidate loop over the boards, threading
the board list through `gameStep`. -/
def scoreBoardsSt (word : Word) (game_states : List Game) :
    List Game × Details :=
  game_states.foldl
    (fun acc g => ((gameStep word g).1 :: acc.1, addDetails acc.2 (gameStep word g).2))
    ([], zeroDetails)
  |> fun p => (p.1.reverse, p.2)

/-- State-passing form of `analyzeWord`. -/
def analyzeWordSt (game_states : List Game) (word : Word) :
    List Game × AnalysisResult :=
  let p := scoreBoardsSt word game_states
  (p.1, { word := word, score := detailsScore p.2, details := p.2 })

/-- State-passing form of the candidate loop, threading the board list
through every candidate's pass. -/
def analyzeCandidatesSt (game_states : List Game)
    (candidate_words : List Word) : List Game × List AnalysisResult :=
  (candidate_words.filter
      (fun w => ! decide (w ∈ previously_guessed game_states))).foldl
    (fun acc w =>
      let p := analyzeWordSt acc.1 w
      (p.1, acc.2 ++ [p.2]))
    (game_states, [])

/-- State-passing form of `impersonate_guesser`, returning the board list
alongside the results so that the frame property is statable. -/
def impersonate_guesser_st (wordlist candidate_words : List Word)
    (game_states : List Game) :
    List Game × (List AnalysisResult × String) :=
  if wordlist = [] then (game_states, ([], "No wordlist loaded."))
  else
    let p := analyzeCandidatesSt game_states candidate_words
    let analysis_results := sortResults p.2
    (p.1, (analysis_results, build_reasoning_report analysis_results))

end Wordle9

namespace Wordle9

/-- Helper: the word field of an analysis result is the analyzed word. -/
theorem analyzeWord_word (game_states : List Game) (word : Word) :
    (analyzeWord game_states word).word = word := rfl

/-- Helper: adding the all-zero counters changes nothing. -/
theorem addDetails_zeroDetails (d : Details) : addDetails d zeroDetails = d := by
  cases d; simp [addDetails, zeroDetails]

/-- C1: for every board history, the extracted knowledge satisfies the
partition invariant: the grey set is disjoint from the yellow set and from
the keys of the green mapping (duplicate-letter reports included, since the
subtraction happens after the whole history is processed). -/
theorem extract_partition_invariant (game : Game) :
    (extract_game_knowledge game).grey_letters ∩
        (extract_game_knowledge game).yellow_letters = ∅ ∧
    (extract_game_knowledge game).grey_letters ∩
        (extract_game_knowledge game).greenKeys = ∅ := by
  unfold extract_game_knowledge Knowledge.greenKeys
  constructor
  · exact Finset.disjoint_iff_inter_eq_empty.mp
      (Finset.disjoint_of_subset_left Finset.sdiff_subset Finset.sdiff_disjoint)
  · exact Finset.disjoint_iff_inter_eq_empty.mp Finset.sdiff_disjoint

/-- C7 (counterexample): on a history containing the unknown tile value
`"blue"`, the extractor does not fail: it returns ordinary knowledge in
which the letter under the unknown tile appears nowhere. -/
theorem unknown_tile_cex :
    (extract_game_knowledge
        { target_word := ['c', 'r', 'a', 'n', 'e'],
          guesses := [['a', 'b', 'c', 'd', 'e']],
          feedback := [["blue", "grey", "grey", "grey", "grey"]] }).grey_letters =
      {'b', 'c', 'd', 'e'} ∧
    (extract_game_knowledge
        { target_word := ['c', 'r', 'a', 'n', 'e'],
          guesses := [['a', 'b', 'c', 'd', 'e']],
          feedback := [["blue", "grey", "grey", "grey", "grey"]] }).yellow_letters = ∅ ∧
    (extract_game_knowledge
        { target_word := ['c', 'r', 'a', 'n', 'e'],
          guesses := [['a', 'b', 'c', 'd', 'e']],
          feedback := [["blue", "grey", "grey", "grey", "grey"]] }).green_letters = ∅ ∧
    'a' ∉ (extract_game_knowledge
        { target_word := ['c', 'r', 'a', 'n', 'e'],
          guesses := [['a', 'b', 'c', 'd', 'e']],
          feedback := [["blue", "grey", "grey", "grey", "grey"]] }).all_known_letters := by
  decide

/-- C7 (amended): a feedback tile value other than green, yellow or grey is
silently ignored by the tile loop — it leaves the accumulated knowledge
unchanged, and no failure occurs. -/
theorem unknown_tile_ignored (kn : Knowledge) (letter : Char) (pos : Nat)
    (tile : Tile) (hg : tile ≠ "green") (hy : tile ≠ "yellow")
    (hgr : tile ≠ "grey") : processTile kn letter pos tile = kn := by
  simp [processTile, hg, hy, hgr]

/-- Witness for C7's amended theorem at a concrete unknown tile. -/
theorem unknown_tile_ignored_witness :
    processTile ⟨∅, ∅, ∅, ∅⟩ 'a' 0 "blue" = ⟨∅, ∅, ∅, ∅⟩ :=
  unknown_tile_ignored ⟨∅, ∅, ∅, ∅⟩ 'a' 0 "blue" (by decide) (by decide)
    (by decide)

/-- C2: for every 5-letter word and every knowledge whose green positions
are in range, the validity filter accepts exactly when the word avoids all
grey letters, contains every yellow letter somewhere, and matches every
green letter/position pair exactly; no position constraint is imposed on
yellow letters. -/
theorem valid_filter_iff (word : Word) (kn : Knowledge)
    (hlen : word.length = 5) (hpos : ∀ lp ∈ kn.green_letters, lp.2 < 5) :
    is_word_valid_for_game word kn = true ↔
      ((∀ c ∈ word, c ∉ kn.grey_letters) ∧
       (∀ c ∈ kn.yellow_letters, c ∈ word) ∧
       (∀ lp ∈ kn.green_letters, word[lp.2]? = some lp.1)) := by
  simp only [is_word_valid_for_game, Bool.and_eq_true, decide_eq_true_eq]
  rw [and_assoc]
  refine and_congr ?_ (and_congr ?_ ?_)
  · rw [Finset.disjoint_right]
    constructor
    · intro h c hc; exact h (List.mem_toFinset.mpr hc)
    · intro h c hc; exact h c (List.mem_toFinset.mp hc)
  · constructor
    · intro h c hc; exact List.mem_toFinset.mp (h hc)
    · intro h c hc; exact List.mem_toFinset.mpr (h c hc)
  · refine ⟨fun h lp hlp => ?_, fun h lp hlp => ?_⟩
    · have h5 : lp.2 < word.length := by rw [hlen]; exact hpos lp hlp
      rw [List.getElem?_eq_getElem h5]
      have := h lp hlp
      rw [List.getD_eq_getElem?_getD, List.getElem?_eq_getElem h5] at this
      simpa using this
    · have h5 : lp.2 < word.length := by rw [hlen]; exact hpos lp hlp
      rw [List.getD_eq_getElem?_getD, List.getElem?_eq_getElem h5]
      have := h lp hlp
      rw [List.getElem?_eq_getElem h5] at this
      simpa using this

/-- Witness for C2 on the spec's own fixture: green `t` at 0, yellow `r`,
grey `x`, candidate `trace`. -/
theorem valid_filter_iff_witness :
    is_word_valid_for_game ['t', 'r', 'a', 'c', 'e']
        ⟨{'x'}, {'r'}, {('t', 0)}, ∅⟩ = true ↔
      ((∀ c ∈ ['t', 'r', 'a', 'c', 'e'],
          c ∉ (⟨{'x'}, {'r'}, {('t', 0)}, ∅⟩ : Knowledge).grey_letters) ∧
       (∀ c ∈ (⟨{'x'}, {'r'}, {('t', 0)}, ∅⟩ : Knowledge).yellow_letters,
          c ∈ ['t', 'r', 'a', 'c', 'e']) ∧
       (∀ lp ∈ (⟨{'x'}, {'r'}, {('t', 0)}, ∅⟩ : Knowledge).green_letters,
          ['t', 'r', 'a', 'c', 'e'][lp.2]? = some lp.1)) :=
  valid_filter_iff ['t', 'r', 'a', 'c', 'e'] ⟨{'x'}, {'r'}, {('t', 0)}, ∅⟩
    (by decide) (by decide)

/-- C3: every analyzed candidate's score is
`10·valid_for_n_games + 1.5·total_new_letters − 5·total_reused_grey`;
raising the new-letter counter by one raises the score by exactly `3/2`,
raising the reused-grey counter by one lowers it by exactly `5`, and the
reused-yellow and reused-green counters do not affect the score. -/
theorem score_weighted_sum :
    (∀ (game_states : List Game) (word : Word),
      (analyzeWord game_states word).score =
        10 * ((analyzeWord game_states word).details.valid_for_n_games : ℚ) +
          (3 / 2) * ((analyzeWord game_states word).details.total_new_letters : ℚ) -
          5 * ((analyzeWord game_states word).details.total_reused_grey : ℚ)) ∧
    (∀ d : Details,
      detailsScore { d with total_new_letters := d.total_new_letters + 1 } =
        detailsScore d + 3 / 2) ∧
    (∀ d : Details,
      detailsScore { d with total_reused_grey := d.total_reused_grey + 1 } =
        detailsScore d - 5) ∧
    (∀ (d : Details) (y g : Nat),
      detailsScore { d with total_reused_yellow := y, total_reused_green := g } =
        detailsScore d) := by
  refine ⟨fun gs w => by simp only [analyzeWord, detailsScore]; ring,
    fun d => by simp only [detailsScore]; push_cast; ring,
    fun d => by simp only [detailsScore]; push_cast; ring,
    fun d y g => rfl⟩

end Wordle9

namespace Wordle9

/-- C4: a board whose most recent guess equals its target contributes the
all-zero counters, so dropping it from the board list leaves a candidate's
analysis unchanged; a board that has used its six guesses without winning
is still scored exactly like any active board. -/
theorem won_board_excluded_exhausted_board_scored (word : Word) (game : Game) :
    (game.guesses.getLast? = some game.target_word →
      gameContribution word game = zeroDetails ∧
      ∀ xs ys : List Game,
        analyzeWord (xs ++ game :: ys) word = analyzeWord (xs ++ ys) word) ∧
    (game.guesses.length = 6 → game.guesses.getLast? ≠ some game.target_word →
      gameContribution word game = activeContribution word game) := by
  constructor
  · intro hwon
    have hzero : gameContribution word game = zeroDetails := by
      simp [gameContribution, hwon]
    refine ⟨hzero, fun xs ys => ?_⟩
    simp only [analyzeWord, List.foldl_append, List.foldl_cons, hzero,
      addDetails_zeroDetails]
  · intro _ hnot
    simp [gameContribution, hnot]

/-- Witness for C4: a won board contributes nothing to the analysis, while
a board with six losing guesses is still scored by the active branch. -/
theorem won_board_excluded_exhausted_board_scored_witness :
    gameContribution ['s', 'l', 'a', 't', 'e']
        { target_word := ['a', 'a', 'a', 'a', 'a'],
          guesses := [['a', 'a', 'a', 'a', 'a']],
          feedback := [["green", "green", "green", "green", "green"]] } =
      zeroDetails ∧
    analyzeWord
        [{ target_word := ['a', 'a', 'a', 'a', 'a'],
           guesses := [['a', 'a', 'a', 'a', 'a']],
           feedback := [["green", "green", "green", "green", "green"]] }]
        ['s', 'l', 'a', 't', 'e'] =
      analyzeWord [] ['s', 'l', 'a', 't', 'e'] ∧
    gameContribution ['s', 'l', 'a', 't', 'e']
        { target_word := ['a', 'a', 'a', 'a', 'a'],
          guesses := [['b', 'b', 'b', 'b', 'b'], ['b', 'b', 'b', 'b', 'b'],
            ['b', 'b', 'b', 'b', 'b'], ['b', 'b', 'b', 'b', 'b'],
            ['b', 'b', 'b', 'b', 'b'], ['b', 'b', 'b', 'b', 'b']],
          feedback := [] } =
      activeContribution ['s', 'l', 'a', 't', 'e']
        { target_word := ['a', 'a', 'a', 'a', 'a'],
          guesses := [['b', 'b', 'b', 'b', 'b'], ['b', 'b', 'b', 'b', 'b'],
            ['b', 'b', 'b', 'b', 'b'], ['b', 'b', 'b', 'b', 'b'],
            ['b', 'b', 'b', 'b', 'b'], ['b', 'b', 'b', 'b', 'b']],
          feedback := [] } := by
  refine ⟨((won_board_excluded_exhausted_board_scored ['s', 'l', 'a', 't', 'e']
      { target_word := ['a', 'a', 'a', 'a', 'a'],
        guesses := [['a', 'a', 'a', 'a', 'a']],
        feedback := [["green", "green", "green", "green", "green"]] }).1
      (by decide)).1, ?_,
    (won_board_excluded_exhausted_board_scored ['s', 'l', 'a', 't', 'e']
      { target_word := ['a', 'a', 'a', 'a', 'a'],
        guesses := [['b', 'b', 'b', 'b', 'b'], ['b', 'b', 'b', 'b', 'b'],
          ['b', 'b', 'b', 'b', 'b'], ['b', 'b', 'b', 'b', 'b'],
          ['b', 'b', 'b', 'b', 'b'], ['b', 'b', 'b', 'b', 'b']],
        feedback := [] }).2 (by decide) (by decide)⟩
  have := ((won_board_excluded_exhausted_board_scored ['s', 'l', 'a', 't', 'e']
      { target_word := ['a', 'a', 'a', 'a', 'a'],
        guesses := [['a', 'a', 'a', 'a', 'a']],
        feedback := [["green", "green", "green", "green", "green"]] }).1
      (by decide)).2 [] []
  simpa using this

/-- C5: no analysis result returned by the scorer has a word that was
already guessed on any board — deduplication is against the union of every
guess ever made on every board. -/
theorem scored_candidates_not_previously_guessed
    (wordlist candidate_words : List Word) (game_states : List Game)
    (r : AnalysisResult)
    (hr : r ∈ (impersonate_guesser wordlist candidate_words game_states).1)
    (game : Game) (hg : game ∈ game_states) : r.word ∉ game.guesses := by
  intro hmem
  unfold impersonate_guesser at hr
  by_cases hwl : wordlist = []
  · simp [hwl] at hr
  · simp only [hwl, if_neg, ite_false] at hr
    rw [sortResults, List.mem_insertionSort, analyzeCandidates] at hr
    obtain ⟨w, hw, hrw⟩ := List.mem_map.mp hr
    obtain ⟨_, hflt⟩ := List.mem_filter.mp hw
    simp only [Bool.not_eq_true', decide_eq_false_iff_not] at hflt
    refine hflt (List.mem_flatten.mpr ⟨game.guesses, List.mem_map_of_mem Game.guesses hg, ?_⟩)
    have : r.word = w := by rw [← hrw, analyzeWord_word]
    rwa [this] at hmem

/-- Witness for C5: on one board with one previous guess, the single scored
candidate differs from that guess. -/
theorem scored_candidates_not_previously_guessed_witness :
    (analyzeWord
        [{ target_word := ['a', 'a', 'a', 'a', 'a'],
           guesses := [['b', 'b', 'b', 'b', 'b']],
           feedback := [["grey", "grey", "grey", "grey", "grey"]] }]
        ['q', 'q', 'q', 'q', 'q']).word ∉
      ({ target_word := ['a', 'a', 'a', 'a', 'a'],
         guesses := [['b', 'b', 'b', 'b', 'b']],
         feedback := [["grey", "grey", "grey", "grey", "grey"]] } : Game).guesses :=
  scored_candidates_not_previously_guessed
    [['q', 'q', 'q', 'q', 'q']] [['q', 'q', 'q', 'q', 'q']]
    [{ target_word := ['a', 'a', 'a', 'a', 'a'],
       guesses := [['b', 'b', 'b', 'b', 'b']],
       feedback := [["grey", "grey", "grey", "grey", "grey"]] }]
    (analyzeWord
      [{ target_word := ['a', 'a', 'a', 'a', 'a'],
         guesses := [['b', 'b', 'b', 'b', 'b']],
         feedback := [["grey", "grey", "grey", "grey", "grey"]] }]
      ['q', 'q', 'q', 'q', 'q'])
    (by simp [impersonate_guesser, analyzeCandidates, previously_guessed,
      sortResults, List.insertionSort])
    { target_word := ['a', 'a', 'a', 'a', 'a'],
      guesses := [['b', 'b', 'b', 'b', 'b']],
      feedback := [["grey", "grey", "grey", "grey", "grey"]] }
    (by simp)

/-- C8: an empty wordlist short-circuits to an empty result (with the
"no wordlist" message), and a candidate sample fully eliminated by the
deduplication against previous guesses also yields an empty result list;
neither case is an error. -/
theorem empty_pool_yields_empty_results
    (wordlist candidate_words : List Word) (game_states : List Game) :
    (wordlist = [] →
      impersonate_guesser wordlist candidate_words game_states =
        ([], "No wordlist loaded.")) ∧
    (candidate_words.filter
        (fun w => ! decide (w ∈ previously_guessed game_states)) = [] →
      (impersonate_guesser wordlist candidate_words game_states).1 = []) := by
  constructor
  · intro h
    simp [impersonate_guesser, h]
  · intro h
    unfold impersonate_guesser
    by_cases hwl : wordlist = []
    · simp [hwl]
    · simp [hwl, analyzeCandidates, h, sortResults, List.insertionSort]

/-- Witness for C8: the empty wordlist case, and a one-word sample that is
annihilated by deduplication against a board's guess history. -/
theorem empty_pool_yields_empty_results_witness :
    impersonate_guesser [] [] [] = ([], "No wordlist loaded.") ∧
    (impersonate_guesser [['b', 'b', 'b', 'b', 'b']] [['b', 'b', 'b', 'b', 'b']]
        [{ target_word := ['a', 'a', 'a', 'a', 'a'],
           guesses := [['b', 'b', 'b', 'b', 'b']],
           feedback := [["grey", "grey", "grey", "grey", "grey"]] }]).1 = [] :=
  ⟨(empty_pool_yields_empty_results [] [] []).1 rfl,
   (empty_pool_yields_empty_results [['b', 'b', 'b', 'b', 'b']]
      [['b', 'b', 'b', 'b', 'b']]
      [{ target_word := ['a', 'a', 'a', 'a', 'a'],
         guesses := [['b', 'b', 'b', 'b', 'b']],
         feedback := [["grey", "grey", "grey", "grey", "grey"]] }]).2 (by decide)⟩

end Wordle9

namespace Wordle9

/-- Helper: a threaded board step hands the board back unchanged (the loop
body reads the record's fields and writes none). -/
theorem gameStep_fst (word : Word) (game : Game) :
    (gameStep word game).1 = game := rfl

/-- Helper: the threaded per-candidate pass returns the boards unchanged
and computes the same counters as the pure fold. -/
theorem scoreBoardsSt_eq (word : Word) (gs : List Game) :
    scoreBoardsSt word gs =
      (gs, gs.foldl (fun acc g => addDetails acc (gameContribution word g))
        zeroDetails) := by
  have h : ∀ (l : List Game) (init1 : List Game) (init2 : Details),
      l.foldl (fun acc g =>
          ((gameStep word g).1 :: acc.1, addDetails acc.2 (gameStep word g).2))
        (init1, init2) =
      (l.reverse ++ init1,
        l.foldl (fun acc g => addDetails acc (gameContribution word g)) init2) := by
    intro l
    induction l with
    | nil => intro i1 i2; simp
    | cons g t ih =>
      intro i1 i2
      rw [List.foldl_cons]
      exact (ih (g :: i1) (addDetails i2 (gameContribution word g))).trans (by simp)
  unfold scoreBoardsSt
  simp [h]

/-- Helper: the threaded single-candidate analysis agrees with the pure one
and returns the boards unchanged. -/
theorem analyzeWordSt_eq (gs : List Game) (w : Word) :
    analyzeWordSt gs w = (gs, analyzeWord gs w) := by
  simp [analyzeWordSt, scoreBoardsSt_eq, analyzeWord]

/-- Helper: the threaded candidate loop agrees with the pure one and
returns the boards unchanged. -/
theorem analyzeCandidatesSt_eq (gs : List Game) (cands : List Word) :
    analyzeCandidatesSt gs cands = (gs, analyzeCandidates gs cands) := by
  have h : ∀ (l : List Word) (acc : List AnalysisResult),
      l.foldl (fun (p : List Game × List AnalysisResult) w =>
          (p.1, p.2 ++ [analyzeWord p.1 w])) (gs, acc) =
      (gs, acc ++ l.map (analyzeWord gs)) := by
    intro l
    induction l with
    | nil => intro acc; simp
    | cons w t ih =>
      intro acc
      rw [List.foldl_cons]
      exact (ih (acc ++ [analyzeWord gs w])).trans (by simp)
  unfold analyzeCandidatesSt analyzeCandidates
  simpa [analyzeWordSt_eq] using
    h (cands.filter fun w => ! decide (w ∈ previously_guessed gs)) []

/-- C9: the evaluation pass leaves every board record unchanged — the
state-threaded form of the engine returns exactly the input board list,
and its analysis output coincides with the pure engine's output. -/
theorem core_never_mutates_boards (wordlist candidate_words : List Word)
    (game_states : List Game) :
    (impersonate_guesser_st wordlist candidate_words game_states).1 =
      game_states ∧
    (impersonate_guesser_st wordlist candidate_words game_states).2 =
      impersonate_guesser wordlist candidate_words game_states := by
  unfold impersonate_guesser_st impersonate_guesser
  by_cases hwl : wordlist = []
  · simp [hwl]
  · simp [hwl, analyzeCandidatesSt_eq]

/-- C10: the sample drawn from a non-empty pool has size
`min(100, pool size)`, which never exceeds the pool size (so sampling a
pool smaller than 100 takes it in full, and the draw is always legal), and
the scored result list is never longer than that. -/
theorem sample_is_min_and_results_bounded
    (wordlist candidate_words : List Word) (game_states : List Game)
    (hwl : wordlist ≠ [])
    (hlen : candidate_words.length = sample_size wordlist) :
    sample_size wordlist = min 100 wordlist.length ∧
    sample_size wordlist ≤ wordlist.length ∧
    (wordlist.length < 100 → sample_size wordlist = wordlist.length) ∧
    (impersonate_guesser wordlist candidate_words game_states).1.length ≤
      min 100 wordlist.length := by
  refine ⟨rfl, Nat.min_le_right _ _, fun h => Nat.min_eq_right (Nat.le_of_lt h), ?_⟩
  unfold impersonate_guesser
  rw [if_neg hwl]
  simp only [sortResults]
  rw [List.length_insertionSort, analyzeCandidates, List.length_map]
  calc (candidate_words.filter
          (fun w => ! decide (w ∈ previously_guessed game_states))).length
      ≤ candidate_words.length := List.length_filter_le _ _
    _ = sample_size wordlist := hlen
    _ = min 100 wordlist.length := rfl

/-- Witness for C10 on a two-word pool, sampled in full. -/
theorem sample_is_min_and_results_bounded_witness :
    sample_size [['a', 'a', 'a', 'a', 'a'], ['b', 'b', 'b', 'b', 'b']] =
      min 100 ([['a', 'a', 'a', 'a', 'a'], ['b', 'b', 'b', 'b', 'b']] : List Word).length ∧
    sample_size [['a', 'a', 'a', 'a', 'a'], ['b', 'b', 'b', 'b', 'b']] ≤
      ([['a', 'a', 'a', 'a', 'a'], ['b', 'b', 'b', 'b', 'b']] : List Word).length ∧
    (([['a', 'a', 'a', 'a', 'a'], ['b', 'b', 'b', 'b', 'b']] : List Word).length < 100 →
      sample_size [['a', 'a', 'a', 'a', 'a'], ['b', 'b', 'b', 'b', 'b']] =
        ([['a', 'a', 'a', 'a', 'a'], ['b', 'b', 'b', 'b', 'b']] : List Word).length) ∧
    (impersonate_guesser [['a', 'a', 'a', 'a', 'a'], ['b', 'b', 'b', 'b', 'b']]
        [['a', 'a', 'a', 'a', 'a'], ['b', 'b', 'b', 'b', 'b']] []).1.length ≤
      min 100 ([['a', 'a', 'a', 'a', 'a'], ['b', 'b', 'b', 'b', 'b']] : List Word).length :=
  sample_is_min_and_results_bounded
    [['a', 'a', 'a', 'a', 'a'], ['b', 'b', 'b', 'b', 'b']]
    [['a', 'a', 'a', 'a', 'a'], ['b', 'b', 'b', 'b', 'b']] []
    (by decide) (by decide)

end Wordle9

namespace Wordle9

/-- Helper: in a descending-sorted result list the head's score bounds
every member's score from above. -/
theorem head_score_ge_of_sorted (r : AnalysisResult) (t : List AnalysisResult)
    (hs : (r :: t).Pairwise (fun a b => b.score ≤ a.score)) :
    ∀ x ∈ r :: t, x.score ≤ r.score := by
  intro x hx
  rcases List.mem_cons.mp hx with rfl | hx
  · exact le_refl _
  · exact (List.pairwise_cons.mp hs).1 x hx

/-- Helper: in a descending-sorted result list the last element's score
bounds every member's score from below. -/
theorem getLast_score_le_of_sorted :
    ∀ (l : List AnalysisResult) (h : l ≠ [])
      (hs : l.Pairwise (fun a b => b.score ≤ a.score)),
      ∀ x ∈ l, (l.getLast h).score ≤ x.score := by
  intro l
  induction l with
  | nil => intro h; exact absurd rfl h
  | cons a t ih =>
    intro h hs x hx
    cases t with
    | nil =>
      rcases List.mem_cons.mp hx with rfl | hx
      · exact le_refl _
      · exact absurd hx (List.not_mem_nil x)
    | cons b t2 =>
      rw [List.getLast_cons (List.cons_ne_nil b t2)]
      rcases List.mem_cons.mp hx with rfl | hx
      · exact (List.pairwise_cons.mp hs).1 _
          (List.getLast_mem (List.cons_ne_nil b t2))
      · exact ih (List.cons_ne_nil b t2) (List.pairwise_cons.mp hs).2 x hx

/-- C6: on a non-empty result list sorted descending by score, with `mx`
and `mn` the maximum and minimum scores, the classifier puts each result
into the tier determined by its normalized score
`n = (score − mn) / range`, `range = mx − mn` with `1` substituted when the
range is `0`: great when `n ≥ 4/5`, good when `1/2 ≤ n < 4/5`, bad
otherwise; and when all scores coincide every result lands in the bad
tier. -/
theorem tier_classification (rs : List AnalysisResult) (hne : rs ≠ [])
    (hs : rs.Pairwise (fun a b => b.score ≤ a.score)) (mx mn : ℚ)
    (hmx : ∀ r ∈ rs, r.score ≤ mx) (hmxm : mx ∈ rs.map AnalysisResult.score)
    (hmn : ∀ r ∈ rs, mn ≤ r.score) (hmnm : mn ∈ rs.map AnalysisResult.score) :
    classifyTiers rs =
      (rs.filter (fun x =>
        decide ((x.score - mn) / (if mx - mn = 0 then 1 else mx - mn) ≥ 4 / 5)),
       rs.filter (fun x =>
        decide (1 / 2 ≤ (x.score - mn) / (if mx - mn = 0 then 1 else mx - mn) ∧
          (x.score - mn) / (if mx - mn = 0 then 1 else mx - mn) < 4 / 5)),
       rs.filter (fun x =>
        decide ((x.score - mn) / (if mx - mn = 0 then 1 else mx - mn) < 1 / 2))) ∧
    (mx = mn →
      (classifyTiers rs).1 = [] ∧ (classifyTiers rs).2.1 = [] ∧
        (classifyTiers rs).2.2 = rs) := by
  obtain ⟨r, t, rfl⟩ : ∃ r t, rs = r :: t := by
    cases rs with
    | nil => exact absurd rfl hne
    | cons r t => exact ⟨r, t, rfl⟩
  have hhead : r.score = mx := by
    refine le_antisymm (hmx r (List.mem_cons_self r t)) ?_
    obtain ⟨r0, hr0, hr0s⟩ := List.mem_map.mp hmxm
    rw [← hr0s]
    exact head_score_ge_of_sorted r t hs r0 hr0
  have hlast : ((r :: t).getLast (List.cons_ne_nil r t)).score = mn := by
    refine le_antisymm ?_ (hmn _ (List.getLast_mem _))
    obtain ⟨r0, hr0, hr0s⟩ := List.mem_map.mp hmnm
    rw [← hr0s]
    exact getLast_score_le_of_sorted (r :: t) (List.cons_ne_nil r t) hs r0 hr0
  have hrange : (if mx ≠ mn then mx - mn else 1) =
      (if mx - mn = 0 then 1 else mx - mn) := by
    rcases eq_or_ne mx mn with h | h
    · simp [h]
    · simp [h, sub_eq_zero]
  have hgoodptw : ∀ q : ℚ,
      (!decide (q ≥ 4 / 5) && decide (q ≥ 1 / 2)) =
        decide (1 / 2 ≤ q ∧ q < 4 / 5) := by
    intro q
    by_cases h1 : q ≥ 4 / 5 <;> by_cases h2 : q ≥ 1 / 2 <;>
      simp [h1, h2, ge_iff_le, lt_iff_not_ge]
  have hbadptw : ∀ q : ℚ,
      (!decide (q ≥ 4 / 5) && !decide (q ≥ 1 / 2)) = decide (q < 1 / 2) := by
    intro q
    by_cases h2 : q ≥ 1 / 2
    · rw [decide_eq_true h2]
      simp only [Bool.not_true, Bool.and_false]
      exact (decide_eq_false (not_lt.mpr h2)).symm
    · have hq : q < 1 / 2 := not_le.mp h2
      have h1 : ¬ q ≥ 4 / 5 := by
        intro hc
        exact h2 (le_trans (by norm_num : (1 : ℚ) / 2 ≤ 4 / 5) hc)
      rw [decide_eq_false h1, decide_eq_false h2, decide_eq_true hq]
      rfl
  have hcls : classifyTiers (r :: t) =
      ((r :: t).filter (fun x =>
        decide ((x.score - mn) / (if mx - mn = 0 then 1 else mx - mn) ≥ 4 / 5)),
       (r :: t).filter (fun x =>
        decide (1 / 2 ≤ (x.score - mn) / (if mx - mn = 0 then 1 else mx - mn) ∧
          (x.score - mn) / (if mx - mn = 0 then 1 else mx - mn) < 4 / 5)),
       (r :: t).filter (fun x =>
        decide ((x.score - mn) / (if mx - mn = 0 then 1 else mx - mn) < 1 / 2))) := by
    simp only [classifyTiers, hhead, hlast, hrange]
    refine congrArg₂ Prod.mk ?_ (congrArg₂ Prod.mk ?_ ?_)
    · rfl
    · exact List.filter_congr (fun x _ => hgoodptw _)
    · exact List.filter_congr (fun x _ => hbadptw _)
  refine ⟨hcls, fun heq => ?_⟩
  have hall : ∀ x ∈ r :: t, x.score = mn := fun x hx =>
    le_antisymm (heq ▸ hmx x hx) (hmn x hx)
  have hzero : ∀ x ∈ r :: t,
      (x.score - mn) / (if mx - mn = 0 then 1 else mx - mn) = 0 := by
    intro x hx
    rw [hall x hx]
    simp [heq]
  rw [hcls]
  refine ⟨?_, ?_, ?_⟩
  · rw [List.filter_eq_nil_iff]
    intro x hx
    rw [hzero x hx]
    norm_num
  · rw [List.filter_eq_nil_iff]
    intro x hx
    rw [hzero x hx]
    norm_num
  · rw [List.filter_eq_self]
    intro x hx
    rw [hzero x hx]
    norm_num

end Wordle9

namespace Wordle9

/-- Witness for C6 on a two-element sorted result list with scores 10 and
0. -/
theorem tier_classification_witness :
    classifyTiers [⟨['a'], 10, zeroDetails⟩, ⟨['b'], 0, zeroDetails⟩] =
      (([⟨['a'], 10, zeroDetails⟩, ⟨['b'], 0, zeroDetails⟩] :
          List AnalysisResult).filter (fun x =>
        decide ((x.score - 0) / (if (10 : ℚ) - 0 = 0 then 1 else 10 - 0) ≥ 4 / 5)),
       ([⟨['a'], 10, zeroDetails⟩, ⟨['b'], 0, zeroDetails⟩] :
          List AnalysisResult).filter (fun x =>
        decide (1 / 2 ≤ (x.score - 0) / (if (10 : ℚ) - 0 = 0 then 1 else 10 - 0) ∧
          (x.score - 0) / (if (10 : ℚ) - 0 = 0 then 1 else 10 - 0) < 4 / 5)),
       ([⟨['a'], 10, zeroDetails⟩, ⟨['b'], 0, zeroDetails⟩] :
          List AnalysisResult).filter (fun x =>
        decide ((x.score - 0) / (if (10 : ℚ) - 0 = 0 then 1 else 10 - 0) < 1 / 2))) ∧
    ((10 : ℚ) = 0 →
      (classifyTiers [⟨['a'], 10, zeroDetails⟩, ⟨['b'], 0, zeroDetails⟩]).1 = [] ∧
      (classifyTiers [⟨['a'], 10, zeroDetails⟩, ⟨['b'], 0, zeroDetails⟩]).2.1 = [] ∧
      (classifyTiers [⟨['a'], 10, zeroDetails⟩, ⟨['b'], 0, zeroDetails⟩]).2.2 =
        [⟨['a'], 10, zeroDetails⟩, ⟨['b'], 0, zeroDetails⟩]) :=
  tier_classification [⟨['a'], 10, zeroDetails⟩, ⟨['b'], 0, zeroDetails⟩]
    (by decide) (by decide) 10 0 (by decide) (by decide) (by decide) (by decide)

end Wordle9
